import Mathlib

/-!
Shallow embedding of `NDATools/MindarManager.py` (class `MindarManager`), the
client wrapper around the "mindar" REST service, together with proofs about
its observable behaviour: request shaping (`show_mindars`, `update_status`),
the streaming CSV export (`export_table_to_file`) modelled over an explicit
filesystem and response environment, and the submission-reshaping helper
(`get_mindar_submissions`).

Python strings are Lean `String`s, bytes are `List Nat`, Python `None`-able
string parameters are `Option String`, raised exceptions are `Except` errors,
and the local filesystem is a map from paths to optional byte contents.
-/

namespace Mindar

/-- HTTP verbs, as used by `NDATools.Utils.Verb`. -/
inductive Verb
  | GET
  | POST
  | PUT
  | DELETE
deriving DecidableEq, Repr

/-- Modelled from the spec: `advanced_request` lives in `NDATools/Utils.py`,
which is not under `src/`; per §4.1 and §6 of the specification it performs one
authenticated HTTP call assembled from an endpoint template, ordered path
substitution values, query parameters, a body payload and a verb (default GET).
We model the dispatched request as this record; dispatching is returning it. -/
structure Request where
  endpoint : String
  path_params : List String
  query_params : List (String × String)
  verb : Verb
  body : List (String × String)
deriving DecidableEq, Repr

/-- Modelled from the spec: builds the `Request` that `advanced_request`
dispatches (§4.1); the default verb is GET, so callers that pass no verb are
modelled as passing `Verb.GET` explicitly. -/
def advanced_request (endpoint : String) (path_params : List String)
    (query_params : List (String × String)) (verb : Verb)
    (body : List (String × String)) : Request :=
  { endpoint := endpoint, path_params := path_params, query_params := query_params,
    verb := verb, body := body }

/-- The configuration object consumed by `MindarManager.__init__`: base URL
(`config.mindar`) plus basic-auth credentials. -/
structure Config where
  mindar : String
  username : String
  password : String

/-- `MindarManager.__make_url`: base URL plus extension. -/
def make_url (cfg : Config) (extension : String) : String :=
  cfg.mindar ++ extension

/-- Python truthiness of an optional string argument: `None` and the empty
string are falsy, every other string is truthy. -/
def pyTruthy : Option String → Bool
  | none => false
  | some s => !s.isEmpty

/-- `MindarManager.show_mindars`: GET to the base URL; when `include_deleted`
is true the query parameter `excludeDeleted='false'` is added. -/
def show_mindars (cfg : Config) (include_deleted : Bool) : Request :=
  let query_params : List (String × String) :=
    if include_deleted then [("excludeDeleted", "false")] else []
  advanced_request (make_url cfg "") [] query_params Verb.GET []

/-- The usage-error message raised by `update_status` when the number of
selector parameters set is not exactly one. -/
def updateStatusUsageError : String :=
  "update_status Method must specify either validation-uuid, submission_package_uuid OR submission_id. No more than 1 value can be set for this method"

/-- `MindarManager.update_status`: builds `params` from the truthy selectors in
source order (`validation_uuid`, then `submission_id`, then
`submission_package_uuid`), raises the usage error unless exactly one entry was
added, and otherwise POSTs `params` to the `bulkUpdate` endpoint. -/
def update_status (cfg : Config) (schema table : String)
    (validation_uuid submission_package_uuid submission_id : Option String) :
    Except String Request :=
  let params : List (String × String) :=
    (if pyTruthy validation_uuid then [("validation_uuid", validation_uuid.getD "")] else [])
      ++ (if pyTruthy submission_id then [("submission_id", submission_id.getD "")] else [])
      ++ (if pyTruthy submission_package_uuid then
            [("submission_package_uuid", submission_package_uuid.getD "")] else [])
  if params.length ≠ 1 then
    .error updateStatusUsageError
  else
    .ok (advanced_request (make_url cfg "/{}/tables/{}/records/bulkUpdate")
      [schema, table] [] Verb.POST params)

/-- `Except.isOk` specialised helper: whether a call succeeded. -/
def isOkE {ε α : Type} : Except ε α → Bool
  | .ok _ => true
  | .error _ => false

/-! ### Streaming export (`export_table_to_file`) -/

/-- Local filesystem state: maps each path to the byte contents of the file
there, or `none` when no file exists at that path. -/
def FS : Type := String → Option (List Nat)

/-- Write, create or delete (`v = none`) the file at path `p`. -/
def FS.set (fs : FS) (p : String) (v : Option (List Nat)) : FS :=
  fun q => if q = p then v else fs q

/-- The streamed HTTP response the export loop consumes: `ok`/`status_code`/
`text` as in `requests`, the body as the sequence of chunks that
`iter_content` yields, and `streamError` true when the connection breaks with
an exception after those chunks. -/
structure Response where
  ok : Bool
  status_code : Nat
  text : String
  chunks : List (List Nat)
  streamError : Bool

/-- The environment one export call runs against: the response the streaming
GET produces (`none` when the request itself raises a transport error), and
whether opening the destination file for writing succeeds. -/
structure ExportEnv where
  resp : Option Response
  openOk : Bool

/-- The exceptions the export body can raise, one per raising site. -/
inductive ExportErr
  | openError
  | connectionError
  | httpError (status : Nat)
  | headerError
  | streamError
deriving DecidableEq, Repr

/-- `os.path.join(root_dir, '{}.csv'.format(table))` (POSIX join). -/
def destPath (root_dir table : String) : String :=
  root_dir ++ "/" ++ table ++ ".csv"

/-- The maximal run of decimal digits at the end of `table`: what group 1 of
`re.search(r'^.*?(\d+)$', table)` captures; an empty result means the regex
does not match at all (no trailing digit). -/
def trailingDigits (table : String) : List Char :=
  (table.data.reverse.takeWhile Char.isDigit).reverse

/-- Python `str.rstrip(chars)`: strip from the end every character that occurs
in `chars`. -/
def pyRstrip (s : String) (chars : List Char) : List Char :=
  (s.data.reverse.dropWhile (fun c => chars.contains c)).reverse

/-- The NDA header line `'{},{}\n'.format(name, version)` where
`version = re.search(r'^.*?(\d+)$', table).group(1)` and
`name = table.rstrip(version)`; `none` when the regex search returns `None`
(so that `.group(1)` raises). -/
def headerLine (table : String) : Option String :=
  let ds := trailingDigits table
  if ds.isEmpty then none
  else
    let version := String.mk ds
    let name := String.mk (pyRstrip table ds)
    some (name ++ "," ++ version ++ "\n")

/-- `str.encode("UTF-8")` as a byte list. -/
def encodeUTF8 (s : String) : List Nat :=
  s.toUTF8.toList.map UInt8.toNat

/-- The `for content in r.iter_content(...)` loop: starting from file bytes
and a progress-bar total, skip falsy (empty) chunks, append the others to the
file and add their length to the progress total. -/
def writeChunks : List (List Nat) → List Nat × Nat → List Nat × Nat
  | [], st => st
  | c :: rest, (bytes, prog) =>
    if c.isEmpty then writeChunks rest (bytes, prog)
    else writeChunks rest (bytes ++ c, prog + c.length)

/-- The `try` block of `export_table_to_file`: delete any pre-existing
destination file, open (create) the destination, issue the streaming GET,
raise for a non-2xx status, optionally derive and write the NDA header line,
then stream the body chunks to the file. Returns the exception raised or the
returned `(f.name, progress-total)`, together with the filesystem as the block
leaves it. -/
def exportBody (env : ExportEnv) (fs : FS) (table root_dir : String)
    (add_nda_header : Bool) : Except ExportErr (String × Nat) × FS :=
  let dest := destPath root_dir table
  let fs1 : FS := if (fs dest).isSome then fs.set dest none else fs
  if !env.openOk then (.error .openError, fs1)
  else
    let fs2 := fs1.set dest (some [])
    match env.resp with
    | none => (.error .connectionError, fs2)
    | some r =>
      if !r.ok then (.error (.httpError r.status_code), fs2)
      else
        let hdr : Option (List Nat) :=
          if add_nda_header then (headerLine table).map encodeUTF8 else some []
        match hdr with
        | none => (.error .headerError, fs2)
        | some h =>
          let st := writeChunks r.chunks (h, 0)
          let fs3 := fs2.set dest (some st.1)
          if r.streamError then (.error .streamError, fs3)
          else (.ok (dest, st.2), fs3)

/-- `MindarManager.export_table_to_file`: run the `try` block; on success
return its value, and on any exception delete the destination file if it
exists and re-raise the same exception. (`schema` and `include_id` only shape
the request URL and do not affect the observable behaviour modelled here.) -/
def export_table_to_file (env : ExportEnv) (fs : FS) (table root_dir : String)
    (add_nda_header : Bool) : Except ExportErr (String × Nat) × FS :=
  match exportBody env fs table root_dir add_nda_header with
  | (.ok v, fs1) => (.ok v, fs1)
  | (.error e, fs1) =>
    let dest := destPath root_dir table
    (.error e, if (fs1 dest).isSome then fs1.set dest none else fs1)

/-! ### Submission reshaping (`get_mindar_submissions`) -/

/-- One table record inside a submission of the nested service response:
`short_name`, the two list-valued id fields, and the remaining fields of the
record, carried opaquely and unchanged. -/
structure MTable where
  short_name : String
  validation_uuid : List String
  submission_package_id : List String
  extra : List (String × String)
deriving DecidableEq, Repr

/-- One submission of the nested service response. -/
structure Submission where
  submission_id : Nat
  tables : List MTable
deriving DecidableEq, Repr

/-- The nested response body `{submissions: [...]}`. -/
structure SubmissionsResponse where
  submissions : List Submission
deriving DecidableEq, Repr

/-- The reshaped per-table record produced by `transform`: the original table
record with `submission_id` injected and the two id lists collapsed to their
single element. -/
structure MergedTable where
  short_name : String
  validation_uuid : String
  submission_package_id : String
  submission_id : Nat
  extra : List (String × String)
deriving DecidableEq, Repr

/-- Exceptions raised while reshaping: `multiple c` is
`Exception(err_msg.format(c))` for category `c`, and `indexError` is the
`IndexError` from indexing `[0]` into an empty list. -/
inductive SubErr
  | multiple (category : String)
  | indexError
deriving DecidableEq, Repr

/-- The inner `transform(table, submission_id)`: copy the record, inject
`submission_id`, then for each of the two id lists raise the
multiple-&lt;category&gt; error when it has more than one element and otherwise
replace it by its element `[0]` (raising `IndexError` when it is empty). -/
def transform (table : MTable) (submission_id : Nat) : Except SubErr MergedTable :=
  if table.validation_uuid.length > 1 then .error (.multiple "validation results")
  else
    match table.validation_uuid with
    | [] => .error .indexError
    | v :: _ =>
      if table.submission_package_id.length > 1 then .error (.multiple "submission packages")
      else
        match table.submission_package_id with
        | [] => .error .indexError
        | p :: _ =>
          .ok { short_name := table.short_name, validation_uuid := v,
                submission_package_id := p, submission_id := submission_id,
                extra := table.extra }

/-- The inner `for table in submission['tables']` loop: for each table, raise
the multiple-submissions error when its `short_name` is already a key of the
accumulated dict, and otherwise insert `transform(table, submission_id)`
under it. The dict is an association list in insertion order. -/
def runTables (submission_id : Nat) :
    List MTable → List (String × MergedTable) → Except SubErr (List (String × MergedTable))
  | [], acc => .ok acc
  | t :: rest, acc =>
    if (acc.lookup t.short_name).isSome then .error (.multiple "submissions")
    else
      match transform t submission_id with
      | .error e => .error e
      | .ok m => runTables submission_id rest (acc ++ [(t.short_name, m)])

/-- The outer `for submission in existing_mindar_submissions['submissions']`
loop. -/
def runSubmissions :
    List Submission → List (String × MergedTable) → Except SubErr (List (String × MergedTable))
  | [], acc => .ok acc
  | s :: rest, acc =>
    match runTables s.submission_id s.tables acc with
    | .error e => .error e
    | .ok acc2 => runSubmissions rest acc2

/-- `MindarManager.get_mindar_submissions`, applied to the response body of the
GET it issues: reshape the nested submissions into a dict keyed by
`short_name`. -/
def get_mindar_submissions (resp : SubmissionsResponse) :
    Except SubErr (List (String × MergedTable)) :=
  runSubmissions resp.submissions []

/-- All `short_name`s occurring in the response, in processing order. -/
def allShortNames (resp : SubmissionsResponse) : List String :=
  (resp.submissions.map (fun s => s.tables.map (·.short_name))).flatten

/-- A table whose two id-list fields have exactly one element each: the shape
`transform` accepts. -/
def tableOk (t : MTable) : Prop :=
  t.validation_uuid.length = 1 ∧ t.submission_package_id.length = 1

instance (t : MTable) : Decidable (tableOk t) := by
  unfold tableOk; infer_instance

/-- The successful result of `transform` on a well-shaped table. -/
def mergedOf (t : MTable) (submission_id : Nat) : MergedTable :=
  { short_name := t.short_name, validation_uuid := t.validation_uuid.headI,
    submission_package_id := t.submission_package_id.headI,
    submission_id := submission_id, extra := t.extra }

/-- The flat association list a fully well-shaped response reshapes to. -/
def expectedOutput (resp : SubmissionsResponse) : List (String × MergedTable) :=
  (resp.submissions.map
    (fun s => s.tables.map (fun t => (t.short_name, mergedOf t s.submission_id)))).flatten

/-! ## Theorems -/

/-- C8: `show_mindars` always dispatches a GET to the base URL; when
`include_deleted` is false it sends no query parameters (so the service's
default of excluding soft-deleted entries applies), and when `include_deleted`
is true it sends exactly the query parameter `excludeDeleted='false'` to force
inclusion of deleted entries. -/
theorem claim_C8_show_mindars (cfg : Config) :
    show_mindars cfg false =
      { endpoint := cfg.mindar, path_params := [], query_params := [],
        verb := Verb.GET, body := [] } ∧
    show_mindars cfg true =
      { endpoint := cfg.mindar, path_params := [],
        query_params := [("excludeDeleted", "false")],
        verb := Verb.GET, body := [] } := by
  constructor <;>
    simp [show_mindars, advanced_request, make_url, String.append_empty]

/-- C1 counterexample: supplying exactly one selector (`validation_uuid` as the
empty string, the other two as `None`) makes the call raise the usage error
rather than succeed, because the source tests Python truthiness rather than
presence; dually, supplying two selectors (`validation_uuid="v"` together with
`submission_id=""`) makes the call succeed instead of failing. -/
theorem claim_C1_counterexample :
    update_status ⟨"b", "u", "p"⟩ "s" "t" (some "") none none
        = .error updateStatusUsageError ∧
    isOkE (update_status ⟨"b", "u", "p"⟩ "s" "t" (some "v") none (some ""))
        = true := by
  constructor <;> rfl

/-- C1 (amended): counting a selector as set exactly when it is truthy (not
`None` and not the empty string), `update_status` raises the usage error and
dispatches nothing whenever the number of truthy selectors is not exactly one,
and with exactly one truthy selector it dispatches a POST to the
`.../records/bulkUpdate` endpoint whose body contains only that selector's
key and value. -/
theorem claim_C1_update_status (cfg : Config) (schema table : String)
    (validation_uuid submission_package_uuid submission_id : Option String) :
    ((cond (pyTruthy validation_uuid) 1 0) + (cond (pyTruthy submission_id) 1 0)
        + (cond (pyTruthy submission_package_uuid) 1 0) ≠ 1 →
      update_status cfg schema table validation_uuid submission_package_uuid submission_id
        = .error updateStatusUsageError) ∧
    (pyTruthy validation_uuid = true → pyTruthy submission_id = false →
      pyTruthy submission_package_uuid = false →
      update_status cfg schema table validation_uuid submission_package_uuid submission_id
        = .ok { endpoint := cfg.mindar ++ "/{}/tables/{}/records/bulkUpdate",
                path_params := [schema, table], query_params := [], verb := Verb.POST,
                body := [("validation_uuid", validation_uuid.getD "")] }) ∧
    (pyTruthy validation_uuid = false → pyTruthy submission_id = true →
      pyTruthy submission_package_uuid = false →
      update_status cfg schema table validation_uuid submission_package_uuid submission_id
        = .ok { endpoint := cfg.mindar ++ "/{}/tables/{}/records/bulkUpdate",
                path_params := [schema, table], query_params := [], verb := Verb.POST,
                body := [("submission_id", submission_id.getD "")] }) ∧
    (pyTruthy validation_uuid = false → pyTruthy submission_id = false →
      pyTruthy submission_package_uuid = true →
      update_status cfg schema table validation_uuid submission_package_uuid submission_id
        = .ok { endpoint := cfg.mindar ++ "/{}/tables/{}/records/bulkUpdate",
                path_params := [schema, table], query_params := [], verb := Verb.POST,
                body := [("submission_package_uuid", submission_package_uuid.getD "")] }) := by
  refine ⟨?_, ?_, ?_, ?_⟩
  · intro hcount
    cases hvu : pyTruthy validation_uuid <;> cases hsid : pyTruthy submission_id <;>
      cases hspu : pyTruthy submission_package_uuid <;>
      simp [hvu, hsid, hspu] at hcount <;>
      simp [update_status, hvu, hsid, hspu, advanced_request, make_url]
  · intro hvu hsid hspu
    simp [update_status, hvu, hsid, hspu, advanced_request, make_url]
  · intro hvu hsid hspu
    simp [update_status, hvu, hsid, hspu, advanced_request, make_url]
  · intro hvu hsid hspu
    simp [update_status, hvu, hsid, hspu, advanced_request, make_url]

/-- C1 (amended) witness: with only `submission_id = "sub-1"` set, the call
dispatches a POST whose body is exactly that key. -/
theorem claim_C1_update_status_witness :
    update_status ⟨"b", "u", "p"⟩ "s" "t" none none (some "sub-1")
      = .ok { endpoint := "b/{}/tables/{}/records/bulkUpdate",
              path_params := ["s", "t"], query_params := [], verb := Verb.POST,
              body := [("submission_id", "sub-1")] } :=
  (claim_C1_update_status ⟨"b", "u", "p"⟩ "s" "t" none none (some "sub-1")).2.2.1
    rfl rfl rfl

/-! ### Helper lemmas for the export model -/

theorem writeChunks_eq (cs : List (List Nat)) (b : List Nat) (p : Nat) :
    writeChunks cs (b, p) = (b ++ cs.flatten, p + (cs.map List.length).sum) := by
  induction cs generalizing b p with
  | nil => simp [writeChunks]
  | cons c rest ih =>
    cases hc : c.isEmpty with
    | true =>
      have hceq : c = [] := List.isEmpty_iff.mp hc
      subst hceq
      simpa [writeChunks] using ih b p
    | false =>
      simp only [writeChunks, hc, Bool.false_eq_true, if_false]
      rw [ih (b ++ c) (p + c.length)]
      simp [List.append_assoc, Nat.add_assoc]

/-- Pointwise description of a successful run of the export `try` block. -/
theorem exportBody_success (env : ExportEnv) (fs : FS) (table root_dir : String)
    (add_nda_header : Bool) (r : Response) (hb : List Nat)
    (hr : env.resp = some r) (hopen : env.openOk = true) (hok : r.ok = true)
    (hse : r.streamError = false)
    (hh : (if add_nda_header then (headerLine table).map encodeUTF8 else some []) = some hb) :
    (exportBody env fs table root_dir add_nda_header).1
        = .ok (destPath root_dir table, (r.chunks.map List.length).sum) ∧
    (exportBody env fs table root_dir add_nda_header).2 (destPath root_dir table)
        = some (hb ++ r.chunks.flatten) ∧
    ∀ q, q ≠ destPath root_dir table →
      (exportBody env fs table root_dir add_nda_header).2 q = fs q := by
  obtain ⟨resp, openOk⟩ := env
  simp only at hr hopen
  subst hr hopen
  unfold exportBody
  simp only [hok, hse, hh, Bool.not_true, Bool.false_eq_true, if_false,
    Bool.not_false, writeChunks_eq, List.nil_append, Nat.zero_add]
  refine ⟨trivial, ?_, ?_⟩
  · simp [FS.set]
  · intro q hq
    by_cases hfs : (fs (destPath root_dir table)).isSome <;> simp [hfs, FS.set, hq]

/-- Inversion: a successful export run pins down the environment (the open
succeeded, the response arrived with an ok status, the stream completed, the
header derivation succeeded) and the returned path and progress total. -/
theorem exportBody_ok_inv (env : ExportEnv) (fs : FS) (table root_dir : String)
    (add_nda_header : Bool) (p : String) (n : Nat)
    (h : (exportBody env fs table root_dir add_nda_header).1 = .ok (p, n)) :
    env.openOk = true ∧ ∃ r, env.resp = some r ∧ r.ok = true ∧ r.streamError = false ∧
      ∃ hb, (if add_nda_header then (headerLine table).map encodeUTF8 else some []) = some hb ∧
        p = destPath root_dir table ∧ n = (r.chunks.map List.length).sum := by
  obtain ⟨resp, openOk⟩ := env
  cases openOk with
  | false => simp [exportBody] at h
  | true =>
    cases resp with
    | none => simp [exportBody] at h
    | some r =>
      cases hok : r.ok with
      | false => simp [exportBody, hok] at h
      | true =>
        cases hh : (if add_nda_header then (headerLine table).map encodeUTF8 else some []) with
        | none => simp [exportBody, hok, hh] at h
        | some hb =>
          cases hse : r.streamError with
          | true => simp [exportBody, hok, hh, hse] at h
          | false =>
            simp only [exportBody, hok, hh, hse, writeChunks_eq, Bool.not_true,
              Bool.false_eq_true, if_false, List.nil_append, Nat.zero_add,
              Except.ok.injEq, Prod.mk.injEq] at h
            exact ⟨rfl, r, rfl, hok, hse, hb, rfl, h.1.symm, h.2.symm⟩

/-- On success, `export_table_to_file` returns the `try` block's result and
filesystem unchanged. -/
theorem export_eq_body_of_ok (env : ExportEnv) (fs : FS) (table root_dir : String)
    (add_nda_header : Bool) (v : String × Nat) (fs1 : FS)
    (h : exportBody env fs table root_dir add_nda_header = (.ok v, fs1)) :
    export_table_to_file env fs table root_dir add_nda_header = (.ok v, fs1) := by
  unfold export_table_to_file
  rw [h]

/-- The `except` handler: whenever the `try` block raises, the call re-raises
the same exception and the destination file does not exist afterwards, while
every other path keeps the contents the `try` block left it. -/
theorem export_cleanup (env : ExportEnv) (fs : FS) (table root_dir : String)
    (add_nda_header : Bool) (e : ExportErr)
    (h : (export_table_to_file env fs table root_dir add_nda_header).1 = .error e) :
    (export_table_to_file env fs table root_dir add_nda_header).2
        (destPath root_dir table) = none ∧
    (exportBody env fs table root_dir add_nda_header).1 = .error e ∧
    ∀ q, q ≠ destPath root_dir table →
      (export_table_to_file env fs table root_dir add_nda_header).2 q
        = (exportBody env fs table root_dir add_nda_header).2 q := by
  rcases hbody : exportBody env fs table root_dir add_nda_header with ⟨res, fs1⟩
  cases res with
  | ok v =>
    rw [export_eq_body_of_ok env fs table root_dir add_nda_header v fs1 hbody] at h
    simp at h
  | error e' =>
    unfold export_table_to_file at h ⊢
    rw [hbody] at h ⊢
    simp only at h ⊢
    have he : e' = e := by simpa using h
    subst he
    refine ⟨?_, rfl, ?_⟩
    · by_cases hs : (fs1 (destPath root_dir table)).isSome
      · simp [hs, FS.set]
      · simp only [hs, if_false]
        exact Option.not_isSome_iff_eq_none.mp hs
    · intro q hq
      by_cases hs : (fs1 (destPath root_dir table)).isSome <;> simp [hs, FS.set, hq]

/-- The first component (raised exception or returned value) of
`export_table_to_file` is that of its `try` block: the handler re-raises the
original exception unchanged. -/
theorem export_fst_eq (env : ExportEnv) (fs : FS) (table root_dir : String)
    (add_nda_header : Bool) :
    (export_table_to_file env fs table root_dir add_nda_header).1
      = (exportBody env fs table root_dir add_nda_header).1 := by
  rcases hb : exportBody env fs table root_dir add_nda_header with ⟨res, fs1⟩
  cases res <;> unfold export_table_to_file <;> rw [hb]

/-- When the `try` block succeeds, the handler never runs. -/
theorem export_eq_body_of_isOk (env : ExportEnv) (fs : FS) (table root_dir : String)
    (add_nda_header : Bool)
    (h : isOkE (exportBody env fs table root_dir add_nda_header).1 = true) :
    export_table_to_file env fs table root_dir add_nda_header
      = exportBody env fs table root_dir add_nda_header := by
  rcases hb : exportBody env fs table root_dir add_nda_header with ⟨res, fs1⟩
  cases res with
  | ok v => unfold export_table_to_file; rw [hb]
  | error e => rw [hb] at h; simp [isOkE] at h

/-- C2: whenever `export_table_to_file` raises, the destination file
`<root_dir>/<table>.csv` does not exist on the filesystem after the call (any
partially written file is deleted), and the exception raised by the body of
the call is re-raised to the caller unchanged. -/
theorem claim_C2_export_error_cleanup (env : ExportEnv) (fs : FS)
    (table root_dir : String) (add_nda_header : Bool) (e : ExportErr)
    (h : (export_table_to_file env fs table root_dir add_nda_header).1 = .error e) :
    (export_table_to_file env fs table root_dir add_nda_header).2
        (destPath root_dir table) = none ∧
    (exportBody env fs table root_dir add_nda_header).1 = .error e :=
  ⟨(export_cleanup env fs table root_dir add_nda_header e h).1,
   (export_cleanup env fs table root_dir add_nda_header e h).2.1⟩

/-- C2 witness: a transport error during the streaming GET leaves no
destination file behind and is re-raised. -/
theorem claim_C2_export_error_cleanup_witness :
    (export_table_to_file ⟨none, true⟩ (fun _ => none : FS) "tbl" "." false).2
        (destPath "." "tbl") = none ∧
    (exportBody ⟨none, true⟩ (fun _ => none : FS) "tbl" "." false).1
        = .error .connectionError :=
  claim_C2_export_error_cleanup ⟨none, true⟩ (fun _ => none : FS) "tbl" "." false
    .connectionError rfl

/-- C4: for a successful export whose body is streamed as three chunks of
sizes 10, 0 and 5 bytes, the written file contains exactly the 15 body bytes
in stream order and the reported progress total is 15. -/
theorem claim_C4_export_chunks (env : ExportEnv) (fs : FS) (table root_dir : String)
    (r : Response) (c1 c2 c3 : List Nat)
    (hr : env.resp = some r) (hopen : env.openOk = true) (hok : r.ok = true)
    (hse : r.streamError = false) (hch : r.chunks = [c1, c2, c3])
    (h1 : c1.length = 10) (h2 : c2.length = 0) (h3 : c3.length = 5) :
    (export_table_to_file env fs table root_dir false).1
        = .ok (destPath root_dir table, 15) ∧
    (export_table_to_file env fs table root_dir false).2 (destPath root_dir table)
        = some (c1 ++ c2 ++ c3) ∧
    (c1 ++ c2 ++ c3).length = 15 := by
  have hh : (if false then (headerLine table).map encodeUTF8 else some []) = some [] := rfl
  obtain ⟨hres, hdest, _⟩ :=
    exportBody_success env fs table root_dir false r [] hr hopen hok hse hh
  have heq := export_eq_body_of_isOk env fs table root_dir false (by rw [hres]; rfl)
  rw [heq]
  rw [hch] at hres hdest
  refine ⟨?_, ?_, ?_⟩
  · rw [hres]; simp [h1, h2, h3]
  · rw [hdest]; simp [List.append_assoc]
  · simp [h1, h2, h3]

/-- C4 witness: three concrete chunks of sizes 10, 0 and 5. -/
theorem claim_C4_export_chunks_witness :
    (export_table_to_file
        ⟨some ⟨true, 200, "", [List.replicate 10 1, [], List.replicate 5 2], false⟩, true⟩
        (fun _ => none : FS) "t" "." false).1 = .ok (destPath "." "t", 15) ∧
    (export_table_to_file
        ⟨some ⟨true, 200, "", [List.replicate 10 1, [], List.replicate 5 2], false⟩, true⟩
        (fun _ => none : FS) "t" "." false).2 (destPath "." "t")
      = some (List.replicate 10 1 ++ [] ++ List.replicate 5 2) ∧
    (List.replicate 10 1 ++ [] ++ List.replicate 5 2).length = 15 :=
  claim_C4_export_chunks
    ⟨some ⟨true, 200, "", [List.replicate 10 1, [], List.replicate 5 2], false⟩, true⟩
    (fun _ => none : FS) "t" "." ⟨true, 200, "", [List.replicate 10 1, [], List.replicate 5 2], false⟩
    (List.replicate 10 1) [] (List.replicate 5 2) rfl rfl rfl rfl rfl rfl rfl rfl

/-- C6: exporting table `"emotion02"` with `add_nda_header = True` on a
successful response writes exactly the header line `"emotion,02\n"` (as UTF-8
bytes) to the destination file before any response-body bytes. -/
theorem claim_C6_export_header (env : ExportEnv) (fs : FS) (root_dir : String)
    (r : Response)
    (hr : env.resp = some r) (hopen : env.openOk = true) (hok : r.ok = true)
    (hse : r.streamError = false) :
    (export_table_to_file env fs "emotion02" root_dir true).1
        = .ok (destPath root_dir "emotion02", (r.chunks.map List.length).sum) ∧
    (export_table_to_file env fs "emotion02" root_dir true).2
        (destPath root_dir "emotion02")
        = some (encodeUTF8 "emotion,02\n" ++ r.chunks.flatten) := by
  have hh : (if true then (headerLine "emotion02").map encodeUTF8 else some [])
      = some (encodeUTF8 "emotion,02\n") := rfl
  obtain ⟨hres, hdest, _⟩ :=
    exportBody_success env fs "emotion02" root_dir true r (encodeUTF8 "emotion,02\n")
      hr hopen hok hse hh
  have heq := export_eq_body_of_isOk env fs "emotion02" root_dir true (by rw [hres]; rfl)
  rw [heq]
  exact ⟨hres, hdest⟩

/-- C6 witness: header bytes precede one concrete body chunk. -/
theorem claim_C6_export_header_witness :
    (export_table_to_file ⟨some ⟨true, 200, "", [[65, 66]], false⟩, true⟩
        (fun _ => none : FS) "emotion02" "." true).1
      = .ok (destPath "." "emotion02", (List.map List.length [[65, 66]]).sum) ∧
    (export_table_to_file ⟨some ⟨true, 200, "", [[65, 66]], false⟩, true⟩
        (fun _ => none : FS) "emotion02" "." true).2 (destPath "." "emotion02")
      = some (encodeUTF8 "emotion,02\n" ++ [[65, 66]].flatten) :=
  claim_C6_export_header ⟨some ⟨true, 200, "", [[65, 66]], false⟩, true⟩
    (fun _ => none : FS) "." ⟨true, 200, "", [[65, 66]], false⟩ rfl rfl rfl rfl

/-- C7: every successful call to `export_table_to_file` returns the path
`<root_dir>/<table>.csv`; the destination file afterwards holds exactly the
optional header line followed by the streamed body — independent of any
pre-existing file at that path, which is deleted — and no other path of the
filesystem is touched. -/
theorem claim_C7_export_success (env : ExportEnv) (fs : FS) (table root_dir : String)
    (add_nda_header : Bool) (p : String) (n : Nat)
    (h : (export_table_to_file env fs table root_dir add_nda_header).1 = .ok (p, n)) :
    p = destPath root_dir table ∧
    (∃ r hb, env.resp = some r ∧
      (if add_nda_header then (headerLine table).map encodeUTF8 else some []) = some hb ∧
      (export_table_to_file env fs table root_dir add_nda_header).2
          (destPath root_dir table) = some (hb ++ r.chunks.flatten)) ∧
    (∀ q, q ≠ destPath root_dir table →
      (export_table_to_file env fs table root_dir add_nda_header).2 q = fs q) := by
  have hbody : (exportBody env fs table root_dir add_nda_header).1 = .ok (p, n) :=
    (export_fst_eq env fs table root_dir add_nda_header).symm.trans h
  obtain ⟨hopen, r, hr, hok, hse, hb, hh, hp, hn⟩ :=
    exportBody_ok_inv env fs table root_dir add_nda_header p n hbody
  obtain ⟨hres, hdest, hother⟩ :=
    exportBody_success env fs table root_dir add_nda_header r hb hr hopen hok hse hh
  have heq := export_eq_body_of_isOk env fs table root_dir add_nda_header
    (by rw [hres]; rfl)
  rw [heq]
  exact ⟨hp, ⟨r, hb, hr, hh, hdest⟩, hother⟩

/-- C7 witness: a successful export at a concrete environment returns the
destination path and touches no other path. -/
theorem claim_C7_export_success_witness :
    destPath "." "t" = destPath "." "t" ∧
    (export_table_to_file ⟨some ⟨true, 200, "", [[1, 2]], false⟩, true⟩
        (fun _ => none : FS) "t" "." false).2 "other.csv" = none := by
  have h := claim_C7_export_success ⟨some ⟨true, 200, "", [[1, 2]], false⟩, true⟩
    (fun _ => none : FS) "t" "." false (destPath "." "t") 2 rfl
  exact ⟨h.1, h.2.2 "other.csv" (by decide)⟩

/-- C9: with `add_nda_header = True` and a table name that does not end in a
decimal digit, the call never succeeds and leaves no destination file behind;
when the failure is not pre-empted by an earlier one (the open succeeded and
an ok response arrived), the raised exception is precisely the header
derivation failure (`.group(1)` on a failed regex search). -/
theorem claim_C9_export_header_failure (env : ExportEnv) (fs : FS)
    (table root_dir : String)
    (hlast : ∀ c ∈ table.data.getLast?, c.isDigit = false) :
    isOkE (export_table_to_file env fs table root_dir true).1 = false ∧
    (export_table_to_file env fs table root_dir true).2 (destPath root_dir table)
        = none ∧
    (env.openOk = true → ∀ r, env.resp = some r → r.ok = true →
      (export_table_to_file env fs table root_dir true).1 = .error .headerError) := by
  have htd : trailingDigits table = [] := by
    unfold trailingDigits
    cases hrev : table.data.reverse with
    | nil => simp
    | cons c cs =>
      have hc : table.data.getLast? = some c := by
        rw [← List.head?_reverse, hrev]; rfl
      have hcd : c.isDigit = false := hlast c (by rw [hc]; rfl)
      simp [List.takeWhile_cons, hcd]
  have hnone : headerLine table = none := by simp [headerLine, htd]
  have hbody : ∃ e, (exportBody env fs table root_dir true).1 = .error e := by
    obtain ⟨resp, openOk⟩ := env
    cases openOk with
    | false => exact ⟨.openError, by simp [exportBody]⟩
    | true =>
      cases resp with
      | none => exact ⟨.connectionError, by simp [exportBody]⟩
      | some r =>
        cases hok : r.ok with
        | false => exact ⟨.httpError r.status_code, by simp [exportBody, hok]⟩
        | true => exact ⟨.headerError, by simp [exportBody, hok, hnone]⟩
  obtain ⟨e, he⟩ := hbody
  have hexp : (export_table_to_file env fs table root_dir true).1 = .error e :=
    (export_fst_eq env fs table root_dir true).trans he
  refine ⟨by rw [hexp]; rfl,
    (export_cleanup env fs table root_dir true e hexp).1, ?_⟩
  intro hopen r hr hok
  have hhd : (exportBody env fs table root_dir true).1 = .error .headerError := by
    obtain ⟨resp, openOk⟩ := env
    simp only at hopen hr
    subst hopen hr
    simp [exportBody, hok, hnone]
  rw [export_fst_eq env fs table root_dir true, hhd]

/-- C9 witness: table `"abc"` with the header flag set fails with the header
derivation error and leaves no file, even though the response was ok. -/
theorem claim_C9_export_header_failure_witness :
    isOkE (export_table_to_file ⟨some ⟨true, 200, "", [], false⟩, true⟩
        (fun _ => none : FS) "abc" "." true).1 = false ∧
    (export_table_to_file ⟨some ⟨true, 200, "", [], false⟩, true⟩
        (fun _ => none : FS) "abc" "." true).2 (destPath "." "abc") = none ∧
    (export_table_to_file ⟨some ⟨true, 200, "", [], false⟩, true⟩
        (fun _ => none : FS) "abc" "." true).1 = .error .headerError := by
  have h := claim_C9_export_header_failure ⟨some ⟨true, 200, "", [], false⟩, true⟩
    (fun _ => none : FS) "abc" "."
    (by
      intro c hc
      have h1 : ("abc" : String).data.getLast? = some 'c' := rfl
      rw [h1, Option.mem_def] at hc
      cases hc
      rfl)
  exact ⟨h.1, h.2.1, h.2.2 rfl ⟨true, 200, "", [], false⟩ rfl rfl⟩

/-! ### Helper lemmas for the reshaping model -/

theorem lookup_none_not_mem {β : Type} (l : List (String × β)) (k : String)
    (h : l.lookup k = none) : k ∉ l.map Prod.fst := by
  intro hk
  rw [List.lookup_eq_none_iff] at h
  obtain ⟨⟨a, b⟩, hab, hk2⟩ := List.mem_map.mp hk
  subst hk2
  exact absurd (h (a, b) hab) (by simp)

theorem lookup_none_of_not_mem {β : Type} (l : List (String × β)) (k : String)
    (h : k ∉ l.map Prod.fst) : l.lookup k = none := by
  rw [List.lookup_eq_none_iff]
  intro p hp
  simp only [bne_iff_ne, ne_eq]
  intro hkp
  exact h (List.mem_map.mpr ⟨p, hp, hkp.symm⟩)

theorem lookup_of_mem_nodup {β : Type} (l : List (String × β))
    (hl : (l.map Prod.fst).Nodup) (a : String) (b : β) (h : (a, b) ∈ l) :
    l.lookup a = some b := by
  induction l with
  | nil => simp at h
  | cons p rest ih =>
    obtain ⟨k, v⟩ := p
    rcases List.mem_cons.mp h with heq | hmem
    · obtain ⟨h1, h2⟩ := Prod.mk.injEq _ _ _ _ ▸ heq
      subst h1; subst h2
      simp [List.lookup_cons]
    · have hk : a ≠ k := by
        rintro rfl
        exact (List.nodup_cons.mp hl).1
          (List.mem_map.mpr ⟨(a, b), hmem, rfl⟩)
      have hbeq : (a == k) = false := beq_eq_false_iff_ne.mpr hk
      simp only [List.lookup_cons, hbeq]
      exact ih (List.nodup_cons.mp hl).2 hmem

theorem transform_ok_of_tableOk (t : MTable) (sid : Nat) (h : tableOk t) :
    transform t sid = .ok (mergedOf t sid) := by
  obtain ⟨h1, h2⟩ := h
  obtain ⟨v, hv⟩ := List.length_eq_one.mp h1
  obtain ⟨p, hp⟩ := List.length_eq_one.mp h2
  simp [transform, mergedOf, hv, hp]

theorem transform_eq_ok (t : MTable) (sid : Nat) (m : MergedTable)
    (h : transform t sid = .ok m) : tableOk t ∧ m = mergedOf t sid := by
  unfold transform at h
  rcases hv : t.validation_uuid with _ | ⟨v, vs⟩ <;> rw [hv] at h
  · simp at h
  · rcases hvs : vs with _ | ⟨v2, vs2⟩
    · subst hvs
      rcases hp : t.submission_package_id with _ | ⟨p, ps⟩ <;> rw [hp] at h
      · simp at h
      · rcases hps : ps with _ | ⟨p2, ps2⟩
        · subst hps
          simp only [List.length_singleton, gt_iff_lt, lt_irrefl, if_false,
            Except.ok.injEq] at h
          refine ⟨⟨by rw [hv]; rfl, by rw [hp]; rfl⟩, ?_⟩
          rw [← h]
          simp [mergedOf, hv, hp]
        · subst hps
          simp [List.length_cons] at h
    · subst hvs
      simp [List.length_cons] at h

theorem transform_eq_error_index (t : MTable) (sid : Nat)
    (h : transform t sid = .error .indexError) :
    t.validation_uuid = [] ∨ t.submission_package_id = [] := by
  unfold transform at h
  rcases hv : t.validation_uuid with _ | ⟨v, vs⟩ <;> rw [hv] at h
  · exact .inl rfl
  · rcases hvs : vs with _ | ⟨v2, vs2⟩
    · subst hvs
      simp only [List.length_singleton, gt_iff_lt, lt_irrefl, if_false] at h
      rcases hp : t.submission_package_id with _ | ⟨p, ps⟩ <;> rw [hp] at h
      · exact .inr rfl
      · rcases hps : ps with _ | ⟨p2, ps2⟩
        · subst hps
          simp at h
        · subst hps
          simp at h
    · subst hvs
      simp at h

theorem transform_eq_error_multiple (t : MTable) (sid : Nat) (c : String)
    (h : transform t sid = .error (.multiple c)) :
    (c = "validation results" ∧ t.validation_uuid.length > 1) ∨
    (c = "submission packages" ∧ t.submission_package_id.length > 1) := by
  unfold transform at h
  rcases hv : t.validation_uuid with _ | ⟨v, vs⟩ <;> rw [hv] at h
  · simp at h
  · rcases hvs : vs with _ | ⟨v2, vs2⟩
    · subst hvs
      simp only [List.length_singleton, gt_iff_lt, lt_irrefl, if_false] at h
      rcases hp : t.submission_package_id with _ | ⟨p, ps⟩ <;> rw [hp] at h
      · simp at h
      · rcases hps : ps with _ | ⟨p2, ps2⟩
        · subst hps
          simp at h
        · subst hps
          have hc : c = "submission packages" := by
            have hgt : (p :: p2 :: ps2).length > 1 := by simp
            rw [if_pos hgt] at h
            simpa using h.symm
          refine .inr ⟨hc, ?_⟩
          simp
    · subst hvs
      have hc : c = "validation results" := by
        have hgt : (v :: v2 :: vs2).length > 1 := by simp
        rw [if_pos hgt] at h
        simpa using h.symm
      refine .inl ⟨hc, ?_⟩
      simp


theorem transform_ne_submissions (t : MTable) (sid : Nat) :
    transform t sid ≠ .error (.multiple "submissions") := by
  intro h
  rcases transform_eq_error_multiple t sid "submissions" h with ⟨hc, _⟩ | ⟨hc, _⟩ <;>
    simp at hc

/-- Keys of the entries one submission's tables contribute. -/
theorem keys_map_merged (ts : List MTable) (sid : Nat) :
    (ts.map (fun t => (t.short_name, mergedOf t sid))).map Prod.fst
      = ts.map (·.short_name) := by
  simp [List.map_map, Function.comp]

/-- Inversion of a successful inner loop run: every table was well shaped and
fresh (w.r.t. the accumulator and each other), and the entries are appended in
order. -/
theorem runTables_ok_inv (sid : Nat) (ts : List MTable)
    (acc out : List (String × MergedTable))
    (h : runTables sid ts acc = .ok out) :
    (∀ t ∈ ts, tableOk t) ∧ (ts.map (·.short_name)).Nodup ∧
    (∀ t ∈ ts, acc.lookup t.short_name = none) ∧
    out = acc ++ ts.map (fun t => (t.short_name, mergedOf t sid)) := by
  induction ts generalizing acc with
  | nil =>
    simp only [runTables, Except.ok.injEq] at h
    simp [h]
  | cons t rest ih =>
    unfold runTables at h
    cases hs : (acc.lookup t.short_name).isSome with
    | true => rw [hs] at h; simp at h
    | false =>
      rw [hs] at h
      simp only [Bool.false_eq_true, if_false] at h
      rcases htr : transform t sid with e | m <;> rw [htr] at h
      · simp at h
      · obtain ⟨hok, hnodup, hfresh, hout⟩ := ih (acc ++ [(t.short_name, m)]) h
        obtain ⟨htOk, hm⟩ := transform_eq_ok t sid m htr
        have hfresh_acc : ∀ t' ∈ rest, acc.lookup t'.short_name = none := by
          intro t' ht'
          have := hfresh t' ht'
          rw [List.lookup_append] at this
          exact (Option.or_eq_none.mp this).1
        have hfresh_t : ∀ t' ∈ rest, t'.short_name ≠ t.short_name := by
          intro t' ht' heq
          have hl := hfresh t' ht'
          rw [List.lookup_append] at hl
          have h2 := (Option.or_eq_none.mp hl).2
          rw [heq] at h2
          simp [List.lookup_cons] at h2
        refine ⟨?_, ?_, ?_, ?_⟩
        · intro t' ht'
          rcases List.mem_cons.mp ht' with rfl | hmem
          · exact htOk
          · exact hok t' hmem
        · rw [List.map_cons, List.nodup_cons]
          refine ⟨?_, hnodup⟩
          intro hmem
          obtain ⟨t', ht', heq⟩ := List.mem_map.mp hmem
          exact hfresh_t t' ht' heq
        · intro t' ht'
          rcases List.mem_cons.mp ht' with rfl | hmem
          · cases ho : List.lookup t'.short_name acc with
            | none => rfl
            | some m2 => rw [ho] at hs; simp at hs
          · exact hfresh_acc t' hmem
        · rw [hout, hm]
          simp [List.append_assoc]

/-- The inner loop succeeds on well-shaped, mutually fresh tables, appending
their entries in order. -/
theorem runTables_ok_of (sid : Nat) (ts : List MTable)
    (acc : List (String × MergedTable))
    (hok : ∀ t ∈ ts, tableOk t) (hnodup : (ts.map (·.short_name)).Nodup)
    (hfresh : ∀ t ∈ ts, acc.lookup t.short_name = none) :
    runTables sid ts acc
      = .ok (acc ++ ts.map (fun t => (t.short_name, mergedOf t sid))) := by
  induction ts generalizing acc with
  | nil => simp [runTables]
  | cons t rest ih =>
    unfold runTables
    have h1 : acc.lookup t.short_name = none := hfresh t (List.mem_cons_self t rest)
    rw [h1]
    simp only [Option.isSome_none, Bool.false_eq_true, if_false]
    simp only [transform_ok_of_tableOk t sid (hok t (List.mem_cons_self t rest))]
    rw [List.map_cons, List.nodup_cons] at hnodup
    have hfresh2 : ∀ t' ∈ rest,
        (acc ++ [(t.short_name, mergedOf t sid)]).lookup t'.short_name = none := by
      intro t' ht'
      rw [List.lookup_append, Option.or_eq_none]
      refine ⟨hfresh t' (List.mem_cons_of_mem t ht'), ?_⟩
      have hne : t'.short_name ≠ t.short_name := by
        intro heq
        exact hnodup.1 (heq ▸ List.mem_map.mpr ⟨t', ht', rfl⟩)
      have hbeq : (t'.short_name == t.short_name) = false :=
        beq_eq_false_iff_ne.mpr hne
      simp [List.lookup_cons, hbeq]
    rw [ih (acc ++ [(t.short_name, mergedOf t sid)])
      (fun t' ht' => hok t' (List.mem_cons_of_mem t ht'))
      hnodup.2 hfresh2]
    simp [List.append_assoc]

/-- When the inner loop raises the multiple-submissions error, some table's
`short_name` was already a key of the accumulator or occurs twice in the
list. -/
theorem runTables_error_submissions (sid : Nat) (ts : List MTable)
    (acc : List (String × MergedTable))
    (h : runTables sid ts acc = .error (.multiple "submissions")) :
    (∃ t ∈ ts, (acc.lookup t.short_name).isSome = true) ∨
      ¬ (ts.map (·.short_name)).Nodup := by
  induction ts generalizing acc with
  | nil => simp [runTables] at h
  | cons t rest ih =>
    unfold runTables at h
    cases hs : (acc.lookup t.short_name).isSome with
    | true => exact .inl ⟨t, List.mem_cons_self t rest, hs⟩
    | false =>
      rw [hs] at h
      simp only [Bool.false_eq_true, if_false] at h
      rcases htr : transform t sid with e | m <;> rw [htr] at h
      · exfalso
        have he : e = .multiple "submissions" := by simpa using h
        exact transform_ne_submissions t sid (he ▸ htr)
      · rcases ih (acc ++ [(t.short_name, m)]) h with ⟨t', ht', hsome⟩ | hnd
        · rw [List.lookup_append] at hsome
          rcases Option.isSome_iff_exists.mp hsome with ⟨m2, hm2⟩
          rcases Option.or_eq_some.mp hm2 with h1 | ⟨_, h2⟩
          · exact .inl ⟨t', List.mem_cons_of_mem t ht', by rw [h1]; rfl⟩
          · by_cases heq : t'.short_name = t.short_name
            · right
              rw [List.map_cons, List.nodup_cons]
              intro ⟨hnotmem, _⟩
              exact hnotmem (heq ▸ List.mem_map.mpr ⟨t', ht', rfl⟩)
            · exfalso
              have hbeq : (t'.short_name == t.short_name) = false :=
                beq_eq_false_iff_ne.mpr heq
              simp [List.lookup_cons, hbeq] at h2
        · right
          rw [List.map_cons, List.nodup_cons]
          intro ⟨_, hnd2⟩
          exact hnd hnd2

/-- When the inner loop raises an `IndexError`, some table has an empty id
list. -/
theorem runTables_error_index (sid : Nat) (ts : List MTable)
    (acc : List (String × MergedTable))
    (h : runTables sid ts acc = .error .indexError) :
    ∃ t ∈ ts, t.validation_uuid = [] ∨ t.submission_package_id = [] := by
  induction ts generalizing acc with
  | nil => simp [runTables] at h
  | cons t rest ih =>
    unfold runTables at h
    cases hs : (acc.lookup t.short_name).isSome with
    | true => rw [hs] at h; simp at h
    | false =>
      rw [hs] at h
      simp only [Bool.false_eq_true, if_false] at h
      rcases htr : transform t sid with e | m <;> rw [htr] at h
      · have he : e = .indexError := by simpa using h
        exact ⟨t, List.mem_cons_self t rest, transform_eq_error_index t sid (he ▸ htr)⟩
      · obtain ⟨t', ht', hor⟩ := ih (acc ++ [(t.short_name, m)]) h
        exact ⟨t', List.mem_cons_of_mem t ht', hor⟩

/-- When the inner loop raises a multiple-&lt;category&gt; error other than
`"submissions"`, some table's corresponding id list has more than one
element. -/
theorem runTables_error_multiple (sid : Nat) (ts : List MTable)
    (acc : List (String × MergedTable)) (c : String) (hc : c ≠ "submissions")
    (h : runTables sid ts acc = .error (.multiple c)) :
    ∃ t ∈ ts, (c = "validation results" ∧ t.validation_uuid.length > 1) ∨
      (c = "submission packages" ∧ t.submission_package_id.length > 1) := by
  induction ts generalizing acc with
  | nil => simp [runTables] at h
  | cons t rest ih =>
    unfold runTables at h
    cases hs : (acc.lookup t.short_name).isSome with
    | true =>
      rw [hs] at h
      simp only [if_true, Except.error.injEq, SubErr.multiple.injEq] at h
      exact absurd h.symm hc
    | false =>
      rw [hs] at h
      simp only [Bool.false_eq_true, if_false] at h
      rcases htr : transform t sid with e | m <;> rw [htr] at h
      · have he : e = .multiple c := by simpa using h
        exact ⟨t, List.mem_cons_self t rest,
          transform_eq_error_multiple t sid c (he ▸ htr)⟩
      · obtain ⟨t', ht', hor⟩ := ih (acc ++ [(t.short_name, m)]) h
        exact ⟨t', List.mem_cons_of_mem t ht', hor⟩

/-- On tables that are all well shaped, the inner loop either succeeds or
raises precisely the multiple-submissions error. -/
theorem runTables_allOk (sid : Nat) (ts : List MTable)
    (acc : List (String × MergedTable)) (hok : ∀ t ∈ ts, tableOk t) :
    (∃ out, runTables sid ts acc = .ok out) ∨
      runTables sid ts acc = .error (.multiple "submissions") := by
  induction ts generalizing acc with
  | nil => exact .inl ⟨acc, rfl⟩
  | cons t rest ih =>
    unfold runTables
    cases hs : (acc.lookup t.short_name).isSome with
    | true => exact .inr rfl
    | false =>
      simp only [Bool.false_eq_true, if_false]
      rw [transform_ok_of_tableOk t sid (hok t (List.mem_cons_self t rest))]
      exact ih (acc ++ [(t.short_name, mergedOf t sid)])
        (fun t' ht' => hok t' (List.mem_cons_of_mem t ht'))

theorem lookup_some_mem {β : Type} (l : List (String × β)) (k : String) (b : β)
    (h : l.lookup k = some b) : k ∈ l.map Prod.fst := by
  by_contra hk
  rw [lookup_none_of_not_mem l k hk] at h
  simp at h

/-- Inversion of a successful outer loop run. -/
theorem runSubmissions_ok_inv (subs : List Submission)
    (acc out : List (String × MergedTable))
    (h : runSubmissions subs acc = .ok out) :
    (∀ s ∈ subs, ∀ t ∈ s.tables, tableOk t) ∧
    ((subs.map (fun s => s.tables.map (·.short_name))).flatten).Nodup ∧
    (∀ s ∈ subs, ∀ t ∈ s.tables, acc.lookup t.short_name = none) ∧
    out = acc ++ (subs.map (fun s =>
      s.tables.map (fun t => (t.short_name, mergedOf t s.submission_id)))).flatten := by
  induction subs generalizing acc with
  | nil =>
    simp only [runSubmissions, Except.ok.injEq] at h
    simp [h]
  | cons s rest ih =>
    unfold runSubmissions at h
    rcases hrt : runTables s.submission_id s.tables acc with e | acc2 <;> rw [hrt] at h
    · simp at h
    · obtain ⟨hok1, hnd1, hfresh1, hacc2⟩ :=
        runTables_ok_inv s.submission_id s.tables acc acc2 hrt
      obtain ⟨hok2, hnd2, hfresh2, hout⟩ := ih acc2 h
      have hfresh2' : ∀ s' ∈ rest, ∀ t' ∈ s'.tables,
          acc.lookup t'.short_name = none := by
        intro s' hs' t' ht'
        have hl := hfresh2 s' hs' t' ht'
        rw [hacc2, List.lookup_append] at hl
        exact (Option.or_eq_none.mp hl).1
      have hnotin : ∀ s' ∈ rest, ∀ t' ∈ s'.tables,
          t'.short_name ∉ s.tables.map (·.short_name) := by
        intro s' hs' t' ht' hmem
        have hl := hfresh2 s' hs' t' ht'
        rw [hacc2, List.lookup_append] at hl
        have h2 := (Option.or_eq_none.mp hl).2
        have h3 := lookup_none_not_mem _ _ h2
        rw [keys_map_merged] at h3
        exact h3 hmem
      refine ⟨?_, ?_, ?_, ?_⟩
      · intro s' hs'
        rcases List.mem_cons.mp hs' with rfl | hmem
        · exact hok1
        · exact hok2 s' hmem
      · rw [List.map_cons, List.flatten_cons, List.nodup_append]
        refine ⟨hnd1, hnd2, ?_⟩
        intro a ha hmem2
        obtain ⟨l, hl, hal⟩ := List.mem_flatten.mp hmem2
        obtain ⟨s', hs', hls⟩ := List.mem_map.mp hl
        rw [← hls] at hal
        obtain ⟨t', ht', hts⟩ := List.mem_map.mp hal
        rw [← hts] at ha
        exact hnotin s' hs' t' ht' ha
      · intro s' hs'
        rcases List.mem_cons.mp hs' with rfl | hmem
        · exact hfresh1
        · exact hfresh2' s' hmem
      · rw [hout, hacc2]
        simp [List.append_assoc]

/-- The outer loop succeeds on a fully well-shaped response. -/
theorem runSubmissions_ok_of (subs : List Submission)
    (acc : List (String × MergedTable))
    (hok : ∀ s ∈ subs, ∀ t ∈ s.tables, tableOk t)
    (hnodup : ((subs.map (fun s => s.tables.map (·.short_name))).flatten).Nodup)
    (hfresh : ∀ s ∈ subs, ∀ t ∈ s.tables, acc.lookup t.short_name = none) :
    runSubmissions subs acc = .ok (acc ++ (subs.map (fun s =>
      s.tables.map (fun t => (t.short_name, mergedOf t s.submission_id)))).flatten) := by
  induction subs generalizing acc with
  | nil => simp [runSubmissions]
  | cons s rest ih =>
    rw [List.map_cons, List.flatten_cons, List.nodup_append] at hnodup
    obtain ⟨hnd1, hnd2, hdisj⟩ := hnodup
    unfold runSubmissions
    simp only [runTables_ok_of s.submission_id s.tables acc
      (hok s (List.mem_cons_self s rest)) hnd1
      (hfresh s (List.mem_cons_self s rest))]
    have hfresh2 : ∀ s' ∈ rest, ∀ t' ∈ s'.tables,
        (acc ++ s.tables.map
          (fun t => (t.short_name, mergedOf t s.submission_id))).lookup t'.short_name
          = none := by
      intro s' hs' t' ht'
      rw [List.lookup_append, Option.or_eq_none]
      refine ⟨hfresh s' (List.mem_cons_of_mem s hs') t' ht', ?_⟩
      apply lookup_none_of_not_mem
      rw [keys_map_merged]
      intro hmem
      exact hdisj hmem (List.mem_flatten.mpr
        ⟨s'.tables.map (·.short_name), List.mem_map.mpr ⟨s', hs', rfl⟩,
         List.mem_map.mpr ⟨t', ht', rfl⟩⟩)
    rw [ih (acc ++ s.tables.map (fun t => (t.short_name, mergedOf t s.submission_id)))
      (fun s' hs' => hok s' (List.mem_cons_of_mem s hs')) hnd2 hfresh2]
    simp [List.append_assoc]

/-- When the outer loop raises the multiple-submissions error, some
`short_name` collides with the accumulator or occurs twice in the response. -/
theorem runSubmissions_error_submissions (subs : List Submission)
    (acc : List (String × MergedTable))
    (h : runSubmissions subs acc = .error (.multiple "submissions")) :
    (∃ s ∈ subs, ∃ t ∈ s.tables, (acc.lookup t.short_name).isSome = true) ∨
      ¬ ((subs.map (fun s => s.tables.map (·.short_name))).flatten).Nodup := by
  induction subs generalizing acc with
  | nil => simp [runSubmissions] at h
  | cons s rest ih =>
    unfold runSubmissions at h
    rcases hrt : runTables s.submission_id s.tables acc with e | acc2 <;> rw [hrt] at h
    · have he : e = .multiple "submissions" := by simpa using h
      subst he
      rcases runTables_error_submissions s.submission_id s.tables acc hrt with
        ⟨t, ht, hsome⟩ | hnd
      · exact .inl ⟨s, List.mem_cons_self s rest, t, ht, hsome⟩
      · right
        rw [List.map_cons, List.flatten_cons, List.nodup_append]
        intro ⟨h1, _, _⟩
        exact hnd h1
    · obtain ⟨hok1, hnd1, hfresh1, hacc2⟩ :=
        runTables_ok_inv s.submission_id s.tables acc acc2 hrt
      rcases ih acc2 h with ⟨s', hs', t', ht', hsome⟩ | hnd
      · rw [hacc2, List.lookup_append] at hsome
        rcases Option.isSome_iff_exists.mp hsome with ⟨m2, hm2⟩
        rcases Option.or_eq_some.mp hm2 with h1 | ⟨hnone, h2⟩
        · exact .inl ⟨s', List.mem_cons_of_mem s hs', t', ht', by rw [h1]; rfl⟩
        · right
          rw [List.map_cons, List.flatten_cons, List.nodup_append]
          intro ⟨_, _, hdisj⟩
          have hmemS : t'.short_name ∈ s.tables.map (·.short_name) := by
            have h3 := lookup_some_mem _ _ _ h2
            rwa [keys_map_merged] at h3
          exact hdisj hmemS (List.mem_flatten.mpr
            ⟨s'.tables.map (·.short_name), List.mem_map.mpr ⟨s', hs', rfl⟩,
             List.mem_map.mpr ⟨t', ht', rfl⟩⟩)
      · right
        rw [List.map_cons, List.flatten_cons, List.nodup_append]
        intro ⟨_, h2, _⟩
        exact hnd h2

/-- When the outer loop raises an `IndexError`, some table has an empty id
list. -/
theorem runSubmissions_error_index (subs : List Submission)
    (acc : List (String × MergedTable))
    (h : runSubmissions subs acc = .error .indexError) :
    ∃ s ∈ subs, ∃ t ∈ s.tables,
      t.validation_uuid = [] ∨ t.submission_package_id = [] := by
  induction subs generalizing acc with
  | nil => simp [runSubmissions] at h
  | cons s rest ih =>
    unfold runSubmissions at h
    rcases hrt : runTables s.submission_id s.tables acc with e | acc2 <;> rw [hrt] at h
    · have he : e = .indexError := by simpa using h
      subst he
      obtain ⟨t, ht, hor⟩ := runTables_error_index s.submission_id s.tables acc hrt
      exact ⟨s, List.mem_cons_self s rest, t, ht, hor⟩
    · obtain ⟨s', hs', t', ht', hor⟩ := ih acc2 h
      exact ⟨s', List.mem_cons_of_mem s hs', t', ht', hor⟩

/-- When the outer loop raises a multiple-&lt;category&gt; error other than
`"submissions"`, some table's corresponding id list has more than one
element. -/
theorem runSubmissions_error_multiple (subs : List Submission)
    (acc : List (String × MergedTable)) (c : String) (hc : c ≠ "submissions")
    (h : runSubmissions subs acc = .error (.multiple c)) :
    ∃ s ∈ subs, ∃ t ∈ s.tables,
      (c = "validation results" ∧ t.validation_uuid.length > 1) ∨
      (c = "submission packages" ∧ t.submission_package_id.length > 1) := by
  induction subs generalizing acc with
  | nil => simp [runSubmissions] at h
  | cons s rest ih =>
    unfold runSubmissions at h
    rcases hrt : runTables s.submission_id s.tables acc with e | acc2 <;> rw [hrt] at h
    · have he : e = .multiple c := by simpa using h
      subst he
      obtain ⟨t, ht, hor⟩ := runTables_error_multiple s.submission_id s.tables acc c hc hrt
      exact ⟨s, List.mem_cons_self s rest, t, ht, hor⟩
    · obtain ⟨s', hs', t', ht', hor⟩ := ih acc2 h
      exact ⟨s', List.mem_cons_of_mem s hs', t', ht', hor⟩

/-- On a response whose tables are all well shaped, the outer loop either
succeeds or raises precisely the multiple-submissions error. -/
theorem runSubmissions_allOk (subs : List Submission)
    (acc : List (String × MergedTable))
    (hok : ∀ s ∈ subs, ∀ t ∈ s.tables, tableOk t) :
    (∃ out, runSubmissions subs acc = .ok out) ∨
      runSubmissions subs acc = .error (.multiple "submissions") := by
  induction subs generalizing acc with
  | nil => exact .inl ⟨acc, rfl⟩
  | cons s rest ih =>
    rcases runTables_allOk s.submission_id s.tables acc
        (hok s (List.mem_cons_self s rest)) with ⟨out, hout⟩ | herr
    · unfold runSubmissions
      simp only [hout]
      exact ih out (fun s' hs' => hok s' (List.mem_cons_of_mem s hs'))
    · right
      unfold runSubmissions
      rw [herr]

theorem expectedOutput_keys (resp : SubmissionsResponse) :
    (expectedOutput resp).map Prod.fst = allShortNames resp := by
  unfold expectedOutput allShortNames
  rw [List.map_flatten]
  congr 1
  rw [List.map_map]
  apply List.map_congr_left
  intro s hs
  simp only [Function.comp_apply]
  exact keys_map_merged s.tables s.submission_id

/-- C3 counterexample: a response with a single table whose `validation_uuid`
list is empty has no duplicate `short_name` and no id list with more than one
element, yet `get_mindar_submissions` does not return normally — it raises the
unguarded `IndexError` from `table['validation_uuid'][0]`. -/
theorem claim_C3_counterexample :
    (allShortNames ⟨[⟨5, [⟨"abc", [], ["p1"], []⟩]⟩]⟩).Nodup ∧
    (∀ s ∈ (⟨[⟨5, [⟨"abc", [], ["p1"], []⟩]⟩]⟩ : SubmissionsResponse).submissions,
      ∀ t ∈ s.tables,
        ¬ t.validation_uuid.length > 1 ∧ ¬ t.submission_package_id.length > 1) ∧
    get_mindar_submissions ⟨[⟨5, [⟨"abc", [], ["p1"], []⟩]⟩]⟩
      = .error .indexError :=
  ⟨by decide, by decide, rfl⟩

/-- C3 (amended): `get_mindar_submissions` returns normally iff no table
`short_name` appears more than once and every table's `validation_uuid` and
`submission_package_id` lists have exactly one element. When it raises, the
unsupported-configuration error names `submissions` only if a `short_name` is
duplicated, `validation results` only if some `validation_uuid` list has more
than one element, and `submission packages` only if some
`submission_package_id` list has more than one element; a table with an empty
id list raises an unguarded `IndexError` instead. -/
theorem claim_C3_reshape_error_conditions (resp : SubmissionsResponse) :
    ((∃ out, get_mindar_submissions resp = .ok out) ↔
      ((allShortNames resp).Nodup ∧
        ∀ s ∈ resp.submissions, ∀ t ∈ s.tables, tableOk t)) ∧
    (get_mindar_submissions resp = .error (.multiple "submissions") →
      ¬ (allShortNames resp).Nodup) ∧
    (get_mindar_submissions resp = .error (.multiple "validation results") →
      ∃ s ∈ resp.submissions, ∃ t ∈ s.tables, t.validation_uuid.length > 1) ∧
    (get_mindar_submissions resp = .error (.multiple "submission packages") →
      ∃ s ∈ resp.submissions, ∃ t ∈ s.tables, t.submission_package_id.length > 1) ∧
    (get_mindar_submissions resp = .error .indexError →
      ∃ s ∈ resp.submissions, ∃ t ∈ s.tables,
        t.validation_uuid = [] ∨ t.submission_package_id = []) := by
  refine ⟨⟨?_, ?_⟩, ?_, ?_, ?_, ?_⟩
  · rintro ⟨out, hout⟩
    obtain ⟨hok, hnd, _, _⟩ := runSubmissions_ok_inv resp.submissions [] out hout
    exact ⟨hnd, hok⟩
  · rintro ⟨hnd, hok⟩
    exact ⟨_, runSubmissions_ok_of resp.submissions [] hok hnd
      (fun s hs t ht => rfl)⟩
  · intro h hnd
    rcases runSubmissions_error_submissions resp.submissions [] h with
      ⟨s, hs, t, ht, hsome⟩ | hnd2
    · simp [List.lookup] at hsome
    · exact hnd2 hnd
  · intro h
    obtain ⟨s, hs, t, ht, hor⟩ := runSubmissions_error_multiple resp.submissions []
      "validation results" (by decide) h
    rcases hor with ⟨_, hlen⟩ | ⟨hc, _⟩
    · exact ⟨s, hs, t, ht, hlen⟩
    · exact absurd hc (by decide)
  · intro h
    obtain ⟨s, hs, t, ht, hor⟩ := runSubmissions_error_multiple resp.submissions []
      "submission packages" (by decide) h
    rcases hor with ⟨hc, _⟩ | ⟨_, hlen⟩
    · exact absurd hc (by decide)
    · exact ⟨s, hs, t, ht, hlen⟩
  · exact runSubmissions_error_index resp.submissions []

/-- C3 (amended) witness: two submissions sharing the `short_name` `"abc"`
raise the multiple-submissions error, so that duplicate is detected. -/
theorem claim_C3_reshape_error_conditions_witness :
    ¬ (allShortNames ⟨[⟨1, [⟨"abc", ["v"], ["p"], []⟩]⟩,
                       ⟨2, [⟨"abc", ["w"], ["q"], []⟩]⟩]⟩).Nodup :=
  (claim_C3_reshape_error_conditions
    ⟨[⟨1, [⟨"abc", ["v"], ["p"], []⟩]⟩, ⟨2, [⟨"abc", ["w"], ["q"], []⟩]⟩]⟩).2.1 rfl

/-- C5: on a response in which every `short_name` appears exactly once and
every id list has exactly one element, `get_mindar_submissions` returns the
mapping whose entry for each table's `short_name` is the original record with
`submission_id` injected from the enclosing submission and the two id lists
replaced by their single elements, all other fields unchanged. -/
theorem claim_C5_reshape_success (resp : SubmissionsResponse)
    (hnodup : (allShortNames resp).Nodup)
    (hok : ∀ s ∈ resp.submissions, ∀ t ∈ s.tables, tableOk t) :
    get_mindar_submissions resp = .ok (expectedOutput resp) ∧
    ∀ s ∈ resp.submissions, ∀ t ∈ s.tables, ∀ v p,
      t.validation_uuid = [v] → t.submission_package_id = [p] →
      (expectedOutput resp).lookup t.short_name =
        some { short_name := t.short_name, validation_uuid := v,
               submission_package_id := p, submission_id := s.submission_id,
               extra := t.extra } := by
  constructor
  · have h := runSubmissions_ok_of resp.submissions [] hok hnodup
      (fun s hs t ht => rfl)
    simpa [get_mindar_submissions, expectedOutput] using h
  · intro s hs t ht v p hv hp
    have hkeys : ((expectedOutput resp).map Prod.fst).Nodup := by
      rw [expectedOutput_keys]; exact hnodup
    have hmem : (t.short_name, mergedOf t s.submission_id) ∈ expectedOutput resp := by
      unfold expectedOutput
      exact List.mem_flatten.mpr
        ⟨s.tables.map (fun t => (t.short_name, mergedOf t s.submission_id)),
         List.mem_map.mpr ⟨s, hs, rfl⟩, List.mem_map.mpr ⟨t, ht, rfl⟩⟩
    rw [lookup_of_mem_nodup (expectedOutput resp) hkeys _ _ hmem]
    simp [mergedOf, hv, hp]

/-- C5 witness: one submission, one table, singleton id lists; the output maps
`"abc"` to the merged record with the extra field carried unchanged. -/
theorem claim_C5_reshape_success_witness :
    get_mindar_submissions ⟨[⟨5, [⟨"abc", ["v1"], ["p1"], [("x", "y")]⟩]⟩]⟩
      = .ok (expectedOutput ⟨[⟨5, [⟨"abc", ["v1"], ["p1"], [("x", "y")]⟩]⟩]⟩) ∧
    (expectedOutput ⟨[⟨5, [⟨"abc", ["v1"], ["p1"], [("x", "y")]⟩]⟩]⟩).lookup "abc"
      = some { short_name := "abc", validation_uuid := "v1",
               submission_package_id := "p1", submission_id := 5,
               extra := [("x", "y")] } := by
  have h := claim_C5_reshape_success ⟨[⟨5, [⟨"abc", ["v1"], ["p1"], [("x", "y")]⟩]⟩]⟩
    (by decide) (by decide)
  refine ⟨h.1, ?_⟩
  have h2 := h.2 ⟨5, [⟨"abc", ["v1"], ["p1"], [("x", "y")]⟩]⟩ (List.mem_singleton.mpr rfl)
    ⟨"abc", ["v1"], ["p1"], [("x", "y")]⟩ (List.mem_singleton.mpr rfl) "v1" "p1" rfl rfl
  simpa using h2

/-- C10 counterexample: a single submission whose tables list contains
`short_name` `"abc"` twice, the first occurrence carrying a two-element
`validation_uuid` list; the call raises the multiple-validation-results error,
not the multiple-submissions error, because the first table's `transform`
raises before the duplicate is reached. -/
theorem claim_C10_counterexample :
    ¬ (allShortNames
        ⟨[⟨5, [⟨"abc", ["a", "b"], ["p"], []⟩, ⟨"abc", ["v"], ["p"], []⟩]⟩]⟩).Nodup ∧
    get_mindar_submissions
        ⟨[⟨5, [⟨"abc", ["a", "b"], ["p"], []⟩, ⟨"abc", ["v"], ["p"], []⟩]⟩]⟩
      = .error (.multiple "validation results") ∧
    SubErr.multiple "validation results" ≠ SubErr.multiple "submissions" :=
  ⟨by decide, rfl, by decide⟩

/-- C10 (amended): whenever a `short_name` occurs twice anywhere in the
response — including twice within the tables list of one single submission —
`get_mindar_submissions` never returns normally; and provided every table's
id lists are well shaped (so that no earlier `transform` error pre-empts the
duplicate check), the raised error is precisely the multiple-submissions
error. -/
theorem claim_C10_duplicate_short_name (resp : SubmissionsResponse)
    (hdup : ¬ (allShortNames resp).Nodup) :
    (∀ out, get_mindar_submissions resp ≠ .ok out) ∧
    ((∀ s ∈ resp.submissions, ∀ t ∈ s.tables, tableOk t) →
      get_mindar_submissions resp = .error (.multiple "submissions")) := by
  constructor
  · intro out hout
    exact hdup (runSubmissions_ok_inv resp.submissions [] out hout).2.1
  · intro hok
    rcases runSubmissions_allOk resp.submissions [] hok with ⟨out, hout⟩ | herr
    · exact absurd (runSubmissions_ok_inv resp.submissions [] out hout).2.1 hdup
    · exact herr

/-- C10 (amended) witness: the duplicate occurs inside one single submission's
tables list, with all id lists well shaped, and the multiple-submissions
error is raised. -/
theorem claim_C10_duplicate_short_name_witness :
    get_mindar_submissions
        ⟨[⟨5, [⟨"abc", ["v"], ["p"], []⟩, ⟨"abc", ["w"], ["q"], []⟩]⟩]⟩
      = .error (.multiple "submissions") :=
  (claim_C10_duplicate_short_name
    ⟨[⟨5, [⟨"abc", ["v"], ["p"], []⟩, ⟨"abc", ["w"], ["q"], []⟩]⟩]⟩
    (by decide)).2 (by decide)

end Mindar
